import Mathlib

/-!
Verification of the LIFE/JDE data-cleaning rule engine (streamlit_app.py).

The embedding models a pandas dataframe as a list of rows, each row an
association list from column names to cell values.  Cell values are
strings, integers (also standing for the small exact float status codes
such as 565.0 and 999.0, and for date ordinals), booleans, or null (NaN).
Every rule of the source is translated one for one; pandas semantics that
matter here (NaN compares unequal under ==, str.contains with na=False,
left merge fan-out, diff + fillna) are made explicit.
-/

/-- Python str.startswith on character lists: first argument is the
pattern, second the text. -/
def startsWithCh : List Char → List Char → Bool
  | [], _ => true
  | _ :: _, [] => false
  | a :: as, b :: bs => a == b && startsWithCh as bs

/-- Python substring containment (pat in s) on character lists: does the
pattern occur contiguously in the text? -/
def containsCh (pat : List Char) : List Char → Bool
  | [] => startsWithCh pat []
  | c :: rest => startsWithCh pat (c :: rest) || containsCh pat rest

/-- Python pat in s on strings. -/
def pyIn (pat s : String) : Bool := containsCh pat.data s.data

/-- Python str.strip on character lists: drop leading and trailing
whitespace. -/
def stripD (l : List Char) : List Char :=
  List.rdropWhile Char.isWhitespace (l.dropWhile Char.isWhitespace)

/-- Python str.lower on character lists, one character at a time. -/
def lowerD (l : List Char) : List Char := l.map Char.toLower

/-- Python str.strip: drop leading and trailing whitespace. -/
def pyStrip (s : String) : String := String.mk (stripD s.data)

/-- Python str.lower (the ASCII letters, the only ones the column names
of this pipeline hold). -/
def pyLower (s : String) : String := String.mk (lowerD s.data)

/-- The col.strip().lower() step applied to every column name of every
source table. -/
def normName (col : String) : String := pyLower (pyStrip col)

/-- Column renaming for the TicketLog (data_life, LOR518) table: strip,
lower, then the two sequential placeholder checks of the source (each an
if testing substring containment on the current name). -/
def rename_life (col : String) : String :=
  let c1 := normName col
  let c2 := if pyIn "unnamed: 6" c1 then "vendor" else c1
  if pyIn "unnamed: 8" c2 then "customer name" else c2

/-- Column renaming for the ReceivingLog (lor850) table. -/
def rename_850 (col : String) : String :=
  let c1 := normName col
  let c2 := if pyIn "unnamed: 5" c1 then "customer" else c1
  if pyIn "unnamed: 8" c2 then "produit" else c2

/-- Column renaming for the StatusFile (data_jde) table: strip and lower
only. -/
def rename_jde (col : String) : String := normName col

/-- A cell value: string, integer (also used for the exact numeric status
codes and date ordinals), boolean, or null (NaN). -/
inductive Val where
  | vStr : String → Val
  | vInt : Int → Val
  | vBool : Bool → Val
  | vNull : Val
deriving DecidableEq, Repr

/-- A dataframe row: an association list from column names to values. -/
abbrev Row := List (String × Val)

/-- A dataframe: an ordered column-name list plus ordered rows. -/
structure DF where
  cols : List String
  rows : List Row
deriving DecidableEq, Repr

/-- Cell lookup by column name; a missing key reads as null. -/
def getCol (r : Row) (c : String) : Val :=
  match r.find? (fun p => decide (p.1 = c)) with
  | some p => p.2
  | none => Val.vNull

/-- Read a cell as an integer when it holds one. -/
def getInt (r : Row) (c : String) : Option Int :=
  match getCol r c with
  | Val.vInt n => some n
  | _ => none

/-- The df.rename(columns=mapping) step: every column name, in the header
and in every row key, is pushed through the rename map. -/
def renameDF (f : String → String) (df : DF) : DF :=
  { cols := df.cols.map f,
    rows := df.rows.map (fun r => r.map (fun p => (f p.1, p.2))) }

/-- The df[cols] projection step: keep exactly the listed columns, in
order, preserving the rows. -/
def selectDF (cols : List String) (df : DF) : DF :=
  { cols := cols,
    rows := df.rows.map (fun r => cols.map (fun c => (c, getCol r c))) }

/-- Column list kept for TicketLog (data_life_columns in the source). -/
def data_life_columns : List String :=
  ["ticket date", "plant", "ticket#", "customer", "vendor", "ship to", "customer name",
   "prod desc", "delv", "truck", "hired", "shipment", "load"]

/-- Column list kept for StatusFile (data_jde_columns in the source). -/
def data_jde_columns : List String :=
  ["n° expéd.", "magasin/usine", "t c", "dernier statut", "statut suivant",
   "date comm.", "nº comm.", "description 1"]

/-- Column list kept for ReceivingLog (lor850_keep in the source). -/
def lor850_keep : List String :=
  ["plant", "receipt date", "customer", "produit", "qty", "external ticket/bol",
   "carrier id", "carrier name", "driver name", "reference no", "user"]

/-- Pandas series == string-scalar: true only for an equal string cell;
null and non-string cells compare false. -/
def seriesEqStr (v : Val) (s : String) : Bool := decide (v = Val.vStr s)

/-- Pandas str.contains with na=False over an alternation of literal
patterns: a string cell matches when some pattern is a substring; null or
non-string cells are false, never an error. -/
def containsNaFalse (pats : List String) (v : Val) : Bool :=
  match v with
  | Val.vStr s => pats.any (fun p => containsCh p.data s.data)
  | _ => false

/-- Ascending comparison on optional integers as pandas sort_values uses
for a numeric column: NaN (none) sorts last. -/
def keyLE (a b : Option Int) : Bool :=
  match a, b with
  | some x, some y => decide (x ≤ y)
  | some _, none => true
  | none, some _ => false
  | none, none => true

/-- Insertion sort standing for pandas sort_values. -/
def sortByKey (le : α → α → Bool) (l : List α) : List α :=
  List.insertionSort (fun a b => le a b = true) l

/-- The prechargement rule: TicketLog rows whose vendor contains the
literal PRECHARGEMENT (str.contains, na=False). -/
def prechargement (data_life : DF) : DF :=
  { data_life with
    rows := data_life.rows.filter (fun r =>
      containsNaFalse ["PRECHARGEMENT"] (getCol r "vendor")) }

/-- The in-place sort of TicketLog by ticket date (line 120 of the
source); dates are modelled as integer ordinals. -/
def sortByTicketDate (data_life : DF) : DF :=
  { data_life with
    rows := sortByKey (fun a b =>
      keyLE (getInt a "ticket date") (getInt b "ticket date")) data_life.rows }

/-- The ticket# sort key of the BL-jump rule. -/
def ticketKey (r : Row) : Option Int := getInt r "ticket#"

/-- The diff().fillna(0) column of the BL-jump rule: each row is extended
with a difference cell equal to its ticket# minus the previous ticket#;
the first row, and any pair with a missing ticket#, gets 0 (fillna). -/
def diffCol (prev : Option Int) : List Row → List Row
  | [] => []
  | r :: rs =>
    let k := ticketKey r
    let d : Option Int :=
      match prev, k with
      | some p, some c => some (c - p)
      | _, _ => none
    (r ++ [("difference", Val.vInt (d.getD 0))]) :: diffCol k rs

/-- The saut_bl (BL jump) rule: project TicketLog to (plant, ticket#,
delv), sort by ticket# ascending, attach the difference column, keep the
rows whose difference is not 1. -/
def saut_bl (data_life : DF) : DF :=
  let plant_data := selectDF ["plant", "ticket#", "delv"] data_life
  let sorted := sortByKey (fun a b => keyLE (ticketKey a) (ticketKey b)) plant_data.rows
  { cols := plant_data.cols ++ ["difference"],
    rows := (diffCol none sorted).filter (fun r =>
      ! decide (getCol r "difference" = Val.vInt 1)) }

/-- The faulty_pickup rule: hired != TMP and delv == N (pandas equality:
a null hired is unequal to TMP and therefore passes the first test; a
null delv fails the second). -/
def faulty_pickup (data_life : DF) : DF :=
  { data_life with
    rows := data_life.rows.filter (fun r =>
      (! seriesEqStr (getCol r "hired") "TMP") && seriesEqStr (getCol r "delv") "N") }

/-- The trans_tmp rule: hired == TMP and delv == Y. -/
def trans_tmp (data_life : DF) : DF :=
  { data_life with
    rows := data_life.rows.filter (fun r =>
      seriesEqStr (getCol r "hired") "TMP" && seriesEqStr (getCol r "delv") "Y") }

/-- The StatusFile filter: t c isin [SO, ST] and dernier statut not isin
[980, 984, 989]. -/
def data_jde_filtered (data_jde : DF) : DF :=
  { data_jde with
    rows := data_jde.rows.filter (fun r =>
      (seriesEqStr (getCol r "t c") "SO" || seriesEqStr (getCol r "t c") "ST") &&
      ! (decide (getCol r "dernier statut" = Val.vInt 980) ||
         decide (getCol r "dernier statut" = Val.vInt 984) ||
         decide (getCol r "dernier statut" = Val.vInt 989))) }

/-- The left outer merge of TicketLog with the filtered StatusFile
projection on shipment = n° expéd.: each TicketLog row fans out to one
joined row per match, or to a single row padded with nulls when no
StatusFile row matches. -/
def merged_data (data_life data_jde : DF) : DF :=
  let dj := data_jde_filtered data_jde
  { cols := data_life.cols ++ ["n° expéd.", "statut suivant"],
    rows := data_life.rows.flatMap (fun r =>
      let ms := dj.rows.filter (fun j =>
        decide (getCol j "n° expéd." = getCol r "shipment"))
      match ms with
      | [] => [r ++ [("n° expéd.", Val.vNull), ("statut suivant", Val.vNull)]]
      | _ => ms.map (fun j =>
          r ++ [("n° expéd.", getCol j "n° expéd."),
                ("statut suivant", getCol j "statut suivant")])) }

/-- The intermediate view excluding statut suivant == 999.0 (pandas !=,
under which a null statut suivant stays). -/
def merged_data_filtered (data_life data_jde : DF) : DF :=
  let m := merged_data data_life data_jde
  { m with rows := m.rows.filter (fun r =>
      ! decide (getCol r "statut suivant" = Val.vInt 999)) }

/-- The exported Status-565 view: joined rows with statut suivant ==
565.0 (the name keeps the typo of the source). -/
def staut_suivant_565 (data_life data_jde : DF) : DF :=
  let m := merged_data data_life data_jde
  { m with rows := m.rows.filter (fun r =>
      decide (getCol r "statut suivant" = Val.vInt 565)) }

/-- The trans_fic rule: produit matches the material alternation
POUZZOLANE|PETCOKE|GYPSE|CLINKER|CALCAIRE|SABLE (case-sensitive substring
regex of literals, na=False) and carrier name equals Transpoteur Fictif
exactly. -/
def trans_fic (lor850 : DF) : DF :=
  { lor850 with
    rows := lor850.rows.filter (fun r =>
      containsNaFalse ["POUZZOLANE", "PETCOKE", "GYPSE", "CLINKER", "CALCAIRE", "SABLE"]
        (getCol r "produit") &&
      decide (getCol r "carrier name" = Val.vStr "Transpoteur Fictif")) }

/-- Python str() of a cell value, as fed to split in the BL validator. -/
def pyStrVal (v : Val) : String :=
  match v with
  | Val.vStr s => s
  | Val.vInt n => toString n
  | Val.vBool b => if b then "True" else "False"
  | Val.vNull => "nan"

/-- Python str.split(sep) for a one-character separator: every occurrence
of the separator cuts the list, so n separators give n+1 (possibly empty)
segments. -/
def splitCh (sep : Char) : List Char → List (List Char)
  | [] => [[]]
  | c :: rest =>
    match splitCh sep rest with
    | [] => [[]]
    | h :: t => if c == sep then [] :: h :: t else (c :: h) :: t

/-- The regex fullmatch of r[347]\d{5}: one leading 3, 4 or 7 and then
exactly five decimal digits, nothing else. -/
def matches347 (s : List Char) : Bool :=
  match s with
  | [] => false
  | c :: rest =>
    (c == '3' || c == '4' || c == '7') && rest.length == 5 && rest.all Char.isDigit

/-- The validate_bl_number function of the source: null is invalid;
otherwise stringify, split on the dash, demand exactly two segments, and
fullmatch the second against r[347]\d{5}.  Total: no input raises. -/
def validate_bl_number (bl_number : Val) : Bool :=
  match bl_number with
  | Val.vNull => false
  | v =>
    match splitCh '-' (pyStrVal v).data with
    | [_, second] => matches347 second
    | _ => false

/-- The in-place mutation lor850[valid bl] = apply(validate_bl_number):
one boolean column is appended on the right, each row gaining one cell at
its end. -/
def withValidBl (lor850 : DF) : DF :=
  { cols := lor850.cols ++ ["valid bl"],
    rows := lor850.rows.map (fun r =>
      r ++ [("valid bl", Val.vBool (validate_bl_number (getCol r "external ticket/bol")))]) }

/-- The faux_bl rule, applied to the mutated ReceivingLog: produit
matches PETCOKE|GYPSE|CLINKER and valid bl == False. -/
def faux_bl (lor850v : DF) : DF :=
  { lor850v with
    rows := lor850v.rows.filter (fun r =>
      containsNaFalse ["PETCOKE", "GYPSE", "CLINKER"] (getCol r "produit") &&
      decide (getCol r "valid bl" = Val.vBool false)) }

/-- The tables produced by one processing run. -/
structure Results where
  prechargement : DF
  saut_bl : DF
  faulty_pickup : DF
  merged_data : DF
  merged_data_filtered : DF
  staut_suivant_565 : DF
  trans_tmp : DF
  trans_fic : DF
  faux_bl : DF
deriving DecidableEq, Repr

/-- The whole processing run, lines 74 to 159 of the source: normalize
and select the three tables, compute prechargement from the unsorted
TicketLog, sort TicketLog by ticket date in place, then run every rule;
trans_fic reads the ReceivingLog before the valid bl mutation and faux_bl
after it. -/
def process (raw_life raw_850 raw_jde : DF) : Results :=
  let data_life := selectDF data_life_columns (renameDF rename_life raw_life)
  let lor850 := selectDF lor850_keep (renameDF rename_850 raw_850)
  let data_jde := selectDF data_jde_columns (renameDF rename_jde raw_jde)
  let prech := prechargement data_life
  let data_life := sortByTicketDate data_life
  let lor850v := withValidBl lor850
  { prechargement := prech,
    saut_bl := saut_bl data_life,
    faulty_pickup := faulty_pickup data_life,
    merged_data := merged_data data_life data_jde,
    merged_data_filtered := merged_data_filtered data_life data_jde,
    staut_suivant_565 := staut_suivant_565 data_life data_jde,
    trans_tmp := trans_tmp data_life,
    trans_fic := trans_fic lor850,
    faux_bl := faux_bl lor850v }

/-- One exported sheet: the header row of column names followed by every
data row in order (to_excel with index=False). -/
def sheetOf (df : DF) : List (List Val) :=
  (df.cols.map Val.vStr) :: df.rows.map (fun r => df.cols.map (fun c => getCol r c))

/-- The export block, lines 202 to 209 of the source: seven sheets in the
fixed order, the fifth holding the unfiltered merge merged_data. -/
def export_sheets (res : Results) : List (String × List (List Val)) :=
  [("prechargement", sheetOf res.prechargement),
   ("saut_bl", sheetOf res.saut_bl),
   ("trans_tmp", sheetOf res.trans_tmp),
   ("trans_fic", sheetOf res.trans_fic),
   ("statut_suivant", sheetOf res.merged_data),
   ("faux_bl", sheetOf res.faux_bl),
   ("faulty_pickup", sheetOf res.faulty_pickup)]

/-- Joining the segments back with the separator. -/
def joinParts (sep : Char) : List (List Char) → List Char
  | [] => []
  | [p] => p
  | p :: q :: ps => p ++ sep :: joinParts sep (q :: ps)

/-- The forward-difference sequence the spec describes for the BL-jump
rule: the first value gets difference 0, every later value its delta from
the previous one. -/
def forwardDiffs (vals : List Int) : List Int :=
  match vals with
  | [] => []
  | v :: vs => 0 :: List.zipWith (fun a b => a - b) vs (v :: vs)

/-- The spec example for the BL-jump rule: five TicketLog rows whose
ticket# sequence is 100, 101, 103, 103, 104, tagged P1..P5 by plant. -/
def exSaut : DF :=
  { cols := ["plant", "ticket#", "delv"],
    rows := [[("plant", Val.vStr "P1"), ("ticket#", Val.vInt 100), ("delv", Val.vStr "Y")],
             [("plant", Val.vStr "P2"), ("ticket#", Val.vInt 101), ("delv", Val.vStr "Y")],
             [("plant", Val.vStr "P3"), ("ticket#", Val.vInt 103), ("delv", Val.vStr "Y")],
             [("plant", Val.vStr "P4"), ("ticket#", Val.vInt 103), ("delv", Val.vStr "N")],
             [("plant", Val.vStr "P5"), ("ticket#", Val.vInt 104), ("delv", Val.vStr "Y")]] }

/-- The spec scenario for the status rules: one TicketLog row with
shipment S1. -/
def exLife565 : DF :=
  { cols := ["shipment"], rows := [[("shipment", Val.vStr "S1")]] }

/-- The matching StatusFile row with statut suivant 565.0. -/
def exJde565 : DF :=
  { cols := ["n° expéd.", "t c", "dernier statut", "statut suivant"],
    rows := [[("n° expéd.", Val.vStr "S1"), ("t c", Val.vStr "SO"),
              ("dernier statut", Val.vInt 100), ("statut suivant", Val.vInt 565)]] }

/-- The same StatusFile row with statut suivant changed to 999.0. -/
def exJde999 : DF :=
  { cols := ["n° expéd.", "t c", "dernier statut", "statut suivant"],
    rows := [[("n° expéd.", Val.vStr "S1"), ("t c", Val.vStr "SO"),
              ("dernier statut", Val.vInt 100), ("statut suivant", Val.vInt 999)]] }

/-! Character-level facts used by the normalization proofs. -/

theorem toNat_ofNat_valid (n : Nat) (h : n.isValidChar) : (Char.ofNat n).toNat = n := by
  simp only [Char.ofNat, dif_pos h, Char.ofNatAux, Char.toNat, UInt32.toNat, BitVec.toNat_ofNatLt]

theorem toLower_toNat_of_upper (c : Char) (h : 65 ≤ c.toNat ∧ c.toNat ≤ 90) :
    (Char.toLower c).toNat = c.toNat + 32 := by
  have hv : (c.toNat + 32).isValidChar := Or.inl (by omega)
  simp only [Char.toLower, ge_iff_le, if_pos h]
  exact toNat_ofNat_valid _ hv

theorem toLower_eq_self (c : Char) (h : ¬ (65 ≤ c.toNat ∧ c.toNat ≤ 90)) :
    Char.toLower c = c := by
  simp only [Char.toLower, ge_iff_le, if_neg h]

theorem toLower_idem (c : Char) : Char.toLower (Char.toLower c) = Char.toLower c := by
  by_cases h : 65 ≤ c.toNat ∧ c.toNat ≤ 90
  · have h1 := toLower_toNat_of_upper c h
    apply toLower_eq_self
    omega
  · rw [toLower_eq_self c h, toLower_eq_self c h]

theorem ne_of_toNat_ne {c d : Char} (h : c.toNat ≠ d.toNat) : c ≠ d :=
  fun e => h (e ▸ rfl)

theorem isWhitespace_eq_false_of_toNat (c : Char)
    (h : c.toNat ≠ 32 ∧ c.toNat ≠ 9 ∧ c.toNat ≠ 13 ∧ c.toNat ≠ 10) :
    c.isWhitespace = false := by
  have h1 : c ≠ ' ' := ne_of_toNat_ne h.1
  have h2 : c ≠ '\t' := ne_of_toNat_ne h.2.1
  have h3 : c ≠ '\r' := ne_of_toNat_ne h.2.2.1
  have h4 : c ≠ '\n' := ne_of_toNat_ne h.2.2.2
  simp [Char.isWhitespace, h1, h2, h3, h4]

theorem isWhitespace_toLower (c : Char) :
    (Char.toLower c).isWhitespace = c.isWhitespace := by
  by_cases h : 65 ≤ c.toNat ∧ c.toNat ≤ 90
  · have h1 := toLower_toNat_of_upper c h
    rw [isWhitespace_eq_false_of_toNat (Char.toLower c) (by omega),
        isWhitespace_eq_false_of_toNat c (by omega)]
  · rw [toLower_eq_self c h]

theorem stripD_head_not (l : List Char) (h : stripD l ≠ []) :
    ((stripD l).head h).isWhitespace = false := by
  have hp : stripD l <+: l.dropWhile Char.isWhitespace := List.rdropWhile_prefix _ _
  have hd : l.dropWhile Char.isWhitespace ≠ [] := by
    intro he
    exact h (by simp [stripD, he])
  rw [hp.head h]
  exact List.head_dropWhile_not Char.isWhitespace l hd

theorem stripD_getLast_not (l : List Char) (h : stripD l ≠ []) :
    ((stripD l).getLast h).isWhitespace = false := by
  have := List.rdropWhile_last_not Char.isWhitespace (l.dropWhile Char.isWhitespace) h
  simpa [stripD] using this

theorem stripD_of_clean (l : List Char)
    (h1 : ∀ hl : l ≠ [], (l.head hl).isWhitespace = false)
    (h2 : ∀ hl : l ≠ [], (l.getLast hl).isWhitespace = false) :
    stripD l = l := by
  rcases l with _ | ⟨c, cs⟩
  · simp [stripD]
  · have h1c : c.isWhitespace = false := by simpa using h1 (by simp)
    have hdw : (c :: cs).dropWhile Char.isWhitespace = c :: cs := by
      rw [List.dropWhile_cons, h1c]
      simp
    rw [stripD, hdw, List.rdropWhile_eq_self_iff]
    intro hl
    simp [h2 hl]

theorem stripD_idem_lower (l : List Char) :
    stripD (lowerD (stripD l)) = lowerD (stripD l) := by
  apply stripD_of_clean
  · intro hl
    have hs : stripD l ≠ [] := by
      intro he
      exact hl (by simp [lowerD, he])
    simp only [lowerD, List.head_map, isWhitespace_toLower]
    exact stripD_head_not l hs
  · intro hl
    have hs : stripD l ≠ [] := by
      intro he
      exact hl (by simp [lowerD, he])
    simp only [lowerD, List.getLast_map, isWhitespace_toLower]
    exact stripD_getLast_not l hs

theorem lowerD_idem (l : List Char) : lowerD (lowerD l) = lowerD l := by
  simp only [lowerD, List.map_map]
  exact List.map_congr_left (fun c _ => toLower_idem c)

theorem normName_idem (s : String) : normName (normName s) = normName s := by
  show String.mk (lowerD (stripD (lowerD (stripD s.data)))) = String.mk (lowerD (stripD s.data))
  rw [stripD_idem_lower, lowerD_idem]

theorem rename_life_eq (col : String) :
    rename_life col =
      if pyIn "unnamed: 6" (normName col) = true then "vendor"
      else if pyIn "unnamed: 8" (normName col) = true then "customer name"
      else normName col := by
  simp only [rename_life]
  by_cases h6 : pyIn "unnamed: 6" (normName col) = true
  · simp [h6, show pyIn "unnamed: 8" "vendor" = false from by decide]
  · by_cases h8 : pyIn "unnamed: 8" (normName col) = true <;> simp [h6, h8]

theorem rename_850_eq (col : String) :
    rename_850 col =
      if pyIn "unnamed: 5" (normName col) = true then "customer"
      else if pyIn "unnamed: 8" (normName col) = true then "produit"
      else normName col := by
  simp only [rename_850]
  by_cases h5 : pyIn "unnamed: 5" (normName col) = true
  · simp [h5, show pyIn "unnamed: 8" "customer" = false from by decide]
  · by_cases h8 : pyIn "unnamed: 8" (normName col) = true <;> simp [h5, h8]

theorem rename_life_idem (col : String) :
    rename_life (rename_life col) = rename_life col := by
  rw [rename_life_eq col]
  by_cases h6 : pyIn "unnamed: 6" (normName col) = true
  · simp only [h6, if_true]
    decide
  · by_cases h8 : pyIn "unnamed: 8" (normName col) = true
    · simp only [h6, h8, if_false, if_true]
      decide
    · rw [if_neg h6, if_neg h8, rename_life_eq (normName col), normName_idem,
         if_neg h6, if_neg h8]

theorem rename_850_idem (col : String) :
    rename_850 (rename_850 col) = rename_850 col := by
  rw [rename_850_eq col]
  by_cases h5 : pyIn "unnamed: 5" (normName col) = true
  · simp only [h5, if_true]
    decide
  · by_cases h8 : pyIn "unnamed: 8" (normName col) = true
    · simp only [h5, h8, if_false, if_true]
      decide
    · rw [if_neg h5, if_neg h8, rename_850_eq (normName col), normName_idem,
         if_neg h5, if_neg h8]

theorem rename_jde_idem (col : String) :
    rename_jde (rename_jde col) = rename_jde col := normName_idem col

theorem renameDF_idem_of (f : String → String) (hf : ∀ c, f (f c) = f c) (df : DF) :
    renameDF f (renameDF f df) = renameDF f df := by
  cases df with
  | mk cols rows =>
    simp only [renameDF, List.map_map, DF.mk.injEq]
    constructor
    · exact List.map_congr_left (fun a _ => hf a)
    · apply List.map_congr_left
      intro r _
      simp only [Function.comp_apply, List.map_map]
      exact List.map_congr_left (fun p _ => by simp [hf p.1])

/-- C8: column normalization is idempotent for every source table:
applying the trim + lower-case + placeholder remap of any of the three
tables to an already-normalized table leaves every column name (and every
row key) unchanged, so normalize(normalize(T)) = normalize(T). -/
theorem claim_C8_normalization_idempotent (df : DF) :
    renameDF rename_life (renameDF rename_life df) = renameDF rename_life df ∧
    renameDF rename_850 (renameDF rename_850 df) = renameDF rename_850 df ∧
    renameDF rename_jde (renameDF rename_jde df) = renameDF rename_jde df :=
  ⟨renameDF_idem_of _ rename_life_idem df, renameDF_idem_of _ rename_850_idem df,
   renameDF_idem_of _ rename_jde_idem df⟩

/-! Facts about the split used by the BL validator. -/

theorem splitCh_ne_nil (sep : Char) (l : List Char) : splitCh sep l ≠ [] := by
  cases l with
  | nil => simp [splitCh]
  | cons c rest =>
    simp only [splitCh]
    rcases splitCh sep rest with _ | ⟨h, t⟩
    · simp
    · by_cases hc : c == sep <;> simp [hc]

theorem joinParts_splitCh (sep : Char) (l : List Char) :
    joinParts sep (splitCh sep l) = l := by
  induction l with
  | nil => simp [splitCh, joinParts]
  | cons c rest ih =>
    simp only [splitCh]
    rcases hs : splitCh sep rest with _ | ⟨h, t⟩
    · exact absurd hs (splitCh_ne_nil sep rest)
    · rw [hs] at ih
      by_cases hc : (c == sep) = true
      · have hce : c = sep := by simpa using hc
        subst hce
        simp only [hc, if_true, joinParts]
        simp [ih]
      · show joinParts sep (if (c == sep) = true then [] :: h :: t else (c :: h) :: t) = c :: rest
        rw [if_neg hc]
        cases t with
        | nil => simpa [joinParts] using congrArg (c :: ·) ih
        | cons q qs => simpa [joinParts] using congrArg (c :: ·) ih

theorem not_mem_of_mem_splitCh (sep : Char) (l : List Char) :
    ∀ p ∈ splitCh sep l, sep ∉ p := by
  induction l with
  | nil =>
    intro p hp
    simp [splitCh] at hp
    simp [hp]
  | cons c rest ih =>
    intro p hp
    rcases hs : splitCh sep rest with _ | ⟨h, t⟩
    · exact absurd hs (splitCh_ne_nil sep rest)
    · rw [hs] at ih
      rw [show splitCh sep (c :: rest) = if c == sep then [] :: h :: t else (c :: h) :: t from
        by simp only [splitCh, hs]] at hp
      by_cases hc : (c == sep) = true
      · rw [if_pos hc] at hp
        rcases List.mem_cons.mp hp with hp | hp
        · simp [hp]
        · exact ih p hp
      · rw [if_neg hc] at hp
        rcases List.mem_cons.mp hp with hp | hp
        · subst hp
          intro hm
          rcases List.mem_cons.mp hm with hm | hm
          · exact hc (by simp [hm])
          · exact ih h (List.mem_cons_self h t) hm
        · exact ih p (List.mem_cons_of_mem h hp)

theorem splitCh_of_not_mem (sep : Char) (l : List Char) (h : sep ∉ l) :
    splitCh sep l = [l] := by
  induction l with
  | nil => simp [splitCh]
  | cons c rest ih =>
    have hc : ¬ (c == sep) = true := by
      simp only [beq_iff_eq]
      intro he
      exact h (by simp [he])
    have hr : sep ∉ rest := fun hm => h (List.mem_cons_of_mem _ hm)
    simp only [splitCh, ih hr]
    rw [if_neg hc]

theorem splitCh_append (sep : Char) (a b : List Char) (h : sep ∉ a) :
    splitCh sep (a ++ sep :: b) = a :: splitCh sep b := by
  induction a with
  | nil =>
    simp only [List.nil_append, splitCh]
    rcases hs : splitCh sep b with _ | ⟨hh, t⟩
    · exact absurd hs (splitCh_ne_nil sep b)
    · simp
  | cons x a' ih =>
    have hx : ¬ (x == sep) = true := by
      simp only [beq_iff_eq]
      intro he
      exact h (by simp [he])
    have ha' : sep ∉ a' := fun hm => h (List.mem_cons_of_mem _ hm)
    show splitCh sep (x :: (a' ++ sep :: b)) = (x :: a') :: splitCh sep b
    simp only [splitCh, ih ha']
    rw [if_neg hx]

theorem splitCh_eq_pair_iff (sep : Char) (l a b : List Char) :
    splitCh sep l = [a, b] ↔ l = a ++ sep :: b ∧ sep ∉ a ∧ sep ∉ b := by
  constructor
  · intro h
    refine ⟨?_, ?_, ?_⟩
    · rw [← joinParts_splitCh sep l, h]
      rfl
    · exact not_mem_of_mem_splitCh sep l a (by simp [h])
    · exact not_mem_of_mem_splitCh sep l b (by simp [h])
  · rintro ⟨rfl, ha, hb⟩
    rw [splitCh_append sep a b ha, splitCh_of_not_mem sep b hb]

theorem matches347_iff (b : List Char) :
    matches347 b = true ↔
      ∃ c rest, b = c :: rest ∧ (c = '3' ∨ c = '4' ∨ c = '7') ∧
        rest.length = 5 ∧ ∀ d ∈ rest, d.isDigit = true := by
  cases b with
  | nil => simp [matches347]
  | cons c rest =>
    simp only [matches347, Bool.and_eq_true, Bool.or_eq_true, beq_iff_eq, List.all_eq_true,
      or_assoc]
    constructor
    · rintro ⟨⟨hc, hl⟩, hd⟩
      exact ⟨c, rest, rfl, hc, by simpa using hl, hd⟩
    · rintro ⟨c', rest', he, hc, hl, hd⟩
      cases he
      exact ⟨⟨hc, by simpa using hl⟩, hd⟩

theorem validate_bl_vStr (s : String) :
    validate_bl_number (Val.vStr s) = true ↔
      ∃ a b, s.data = a ++ '-' :: b ∧ '-' ∉ a ∧ '-' ∉ b ∧ matches347 b = true := by
  constructor
  · intro h
    rcases hs : splitCh '-' s.data with _ | ⟨a, _ | ⟨b, _ | ⟨c, t⟩⟩⟩ <;>
      rw [show validate_bl_number (Val.vStr s) =
        (match splitCh '-' s.data with
         | [_, second] => matches347 second
         | _ => false) from rfl, hs] at h
    · simp at h
    · simp at h
    · obtain ⟨he, ha, hb⟩ := (splitCh_eq_pair_iff '-' s.data a b).mp hs
      exact ⟨a, b, he, ha, hb, h⟩
    · simp at h
  · rintro ⟨a, b, he, ha, hb, hm⟩
    have hs : splitCh '-' s.data = [a, b] :=
      (splitCh_eq_pair_iff '-' s.data a b).mpr ⟨he, ha, hb⟩
    rw [show validate_bl_number (Val.vStr s) =
      (match splitCh '-' s.data with
       | [_, second] => matches347 second
       | _ => false) from rfl, hs]
    exact hm

/-- C1: the BL validator returns true exactly when the value is non-null
and its string form decomposes around a single dash into two dash-free
segments, the second being one of the digits 3, 4 or 7 followed by
exactly five digits; the five example inputs of the spec evaluate as
claimed, and the function is total, so no input raises. -/
theorem claim_C1_validate_bl (v : Val) :
    (validate_bl_number v = true ↔
      v ≠ Val.vNull ∧
      ∃ a b, (pyStrVal v).data = a ++ '-' :: b ∧ '-' ∉ a ∧ '-' ∉ b ∧
        ∃ c rest, b = c :: rest ∧ (c = '3' ∨ c = '4' ∨ c = '7') ∧
          rest.length = 5 ∧ ∀ d ∈ rest, d.isDigit = true) ∧
    validate_bl_number (Val.vStr "LOR-312345") = true ∧
    validate_bl_number (Val.vStr "LOR-212345") = false ∧
    validate_bl_number (Val.vStr "LOR-3123456") = false ∧
    validate_bl_number (Val.vStr "LOR312345") = false ∧
    validate_bl_number Val.vNull = false := by
  refine ⟨?_, by decide, by decide, by decide, by decide, by decide⟩
  cases v with
  | vNull => simp [validate_bl_number]
  | vStr s =>
    rw [validate_bl_vStr s]
    simp only [ne_eq, reduceCtorEq, not_false_eq_true, true_and]
    constructor
    · rintro ⟨a, b, he, ha, hb, hm⟩
      exact ⟨a, b, he, ha, hb, (matches347_iff b).mp hm⟩
    · rintro ⟨a, b, he, ha, hb, hm⟩
      exact ⟨a, b, he, ha, hb, (matches347_iff b).mpr hm⟩
  | vInt n =>
    have : validate_bl_number (Val.vInt n) =
        validate_bl_number (Val.vStr (pyStrVal (Val.vInt n))) := rfl
    rw [this, validate_bl_vStr]
    simp only [ne_eq, reduceCtorEq, not_false_eq_true, true_and]
    constructor
    · rintro ⟨a, b, he, ha, hb, hm⟩
      exact ⟨a, b, he, ha, hb, (matches347_iff b).mp hm⟩
    · rintro ⟨a, b, he, ha, hb, hm⟩
      exact ⟨a, b, he, ha, hb, (matches347_iff b).mpr hm⟩
  | vBool t =>
    have : validate_bl_number (Val.vBool t) =
        validate_bl_number (Val.vStr (pyStrVal (Val.vBool t))) := rfl
    rw [this, validate_bl_vStr]
    simp only [ne_eq, reduceCtorEq, not_false_eq_true, true_and]
    constructor
    · rintro ⟨a, b, he, ha, hb, hm⟩
      exact ⟨a, b, he, ha, hb, (matches347_iff b).mp hm⟩
    · rintro ⟨a, b, he, ha, hb, hm⟩
      exact ⟨a, b, he, ha, hb, (matches347_iff b).mpr hm⟩

theorem isDigit_ne_dash (d : Char) (h : d.isDigit = true) : d ≠ '-' := by
  intro he
  subst he
  exact absurd h (by decide)

/-- C9: the validator accepts an empty first segment: the concrete input
-312345 validates, and in general a dash followed by a code made of one
of 3, 4, 7 and five digits splits into two segments with the first empty
and validates. -/
theorem claim_C9_empty_first_segment :
    validate_bl_number (Val.vStr "-312345") = true ∧
    ∀ (c : Char) (ds : List Char), (c = '3' ∨ c = '4' ∨ c = '7') → ds.length = 5 →
      (∀ d ∈ ds, d.isDigit = true) →
      splitCh '-' ('-' :: c :: ds) = [[], c :: ds] ∧
      validate_bl_number (Val.vStr (String.mk ('-' :: c :: ds))) = true := by
  refine ⟨by decide, ?_⟩
  intro c ds hc hl hd
  have hnm : '-' ∉ c :: ds := by
    intro hm
    rcases List.mem_cons.mp hm with hm | hm
    · rcases hc with h | h | h <;> simp [← hm] at h
    · exact isDigit_ne_dash _ (hd _ hm) rfl
  have hsplit : splitCh '-' ('-' :: c :: ds) = [[], c :: ds] := by
    have h1 : ('-' : Char) ∉ ([] : List Char) := by simp
    have := splitCh_append '-' [] (c :: ds) h1
    rw [splitCh_of_not_mem '-' (c :: ds) hnm] at this
    simpa using this
  refine ⟨hsplit, ?_⟩
  have hv : validate_bl_number (Val.vStr (String.mk ('-' :: c :: ds))) =
      (match splitCh '-' ('-' :: c :: ds) with
       | [_, second] => matches347 second
       | _ => false) := rfl
  rw [hv, hsplit]
  exact (matches347_iff (c :: ds)).mpr ⟨c, ds, rfl, hc, hl, hd⟩

/-- Witness for C9: the general part applied at the concrete code 312345,
discharging every hypothesis. -/
theorem claim_C9_empty_first_segment_witness :
    splitCh '-' ('-' :: '3' :: ['1', '2', '3', '4', '5']) = [[], '3' :: ['1', '2', '3', '4', '5']] ∧
    validate_bl_number (Val.vStr (String.mk ('-' :: '3' :: ['1', '2', '3', '4', '5']))) = true :=
  (claim_C9_empty_first_segment).2 '3' ['1', '2', '3', '4', '5']
    (Or.inl rfl) (by decide) (by decide)

/-! Facts about the BL-jump computation. -/

theorem keyLE_total (a b : Option Int) : keyLE a b = true ∨ keyLE b a = true := by
  cases a <;> cases b <;> (simp [keyLE]; try omega)

theorem keyLE_trans (a b c : Option Int) (h1 : keyLE a b = true) (h2 : keyLE b c = true) :
    keyLE a c = true := by
  cases a <;> cases b <;> cases c <;> (simp [keyLE] at h1 h2 ⊢; try omega)

theorem getCol_append_value (r : Row) (c : String) (v : Val)
    (h : ∀ q ∈ r, q.1 ≠ c) : getCol (r ++ [(c, v)]) c = v := by
  have hn : r.find? (fun p => decide (p.1 = c)) = none :=
    List.find?_eq_none.mpr (fun x hx => by simp [h x hx])
  simp [getCol, List.find?_append, hn, List.find?]

theorem diffCol_map_from (p : Int) (vals : List Int) :
    ∀ rows : List Row,
      rows.map ticketKey = vals.map some →
      (∀ r ∈ rows, ∀ q ∈ r, q.1 ≠ "difference") →
      (diffCol (some p) rows).map (fun r => getCol r "difference") =
        (List.zipWith (fun a b => a - b) vals (p :: vals)).map Val.vInt := by
  induction vals generalizing p with
  | nil =>
    intro rows hv _
    have : rows = [] := by simpa using hv
    subst this
    simp [diffCol]
  | cons v vs ih =>
    intro rows hv hq
    cases rows with
    | nil => simp at hv
    | cons r rs =>
      simp only [List.map_cons, List.cons.injEq] at hv
      obtain ⟨hk, htl⟩ := hv
      simp only [diffCol, hk, List.map_cons, List.zipWith_cons_cons, List.cons.injEq]
      refine ⟨?_, ?_⟩
      · simpa using getCol_append_value r "difference" _ (hq r (List.mem_cons_self r rs))
      · exact ih v rs htl (fun x hx => hq x (List.mem_cons_of_mem r hx))

theorem diffCol_map_none (vals : List Int) (rows : List Row)
    (hv : rows.map ticketKey = vals.map some)
    (hq : ∀ r ∈ rows, ∀ q ∈ r, q.1 ≠ "difference") :
    (diffCol none rows).map (fun r => getCol r "difference") =
      (forwardDiffs vals).map Val.vInt := by
  cases vals with
  | nil =>
    have : rows = [] := by simpa using hv
    subst this
    simp [diffCol, forwardDiffs]
  | cons v vs =>
    cases rows with
    | nil => simp at hv
    | cons r rs =>
      simp only [List.map_cons, List.cons.injEq] at hv
      obtain ⟨hk, htl⟩ := hv
      simp only [diffCol, hk, forwardDiffs, List.map_cons, List.cons.injEq]
      refine ⟨?_, ?_⟩
      · simpa using getCol_append_value r "difference" _ (hq r (List.mem_cons_self r rs))
      · exact diffCol_map_from v vs rs htl (fun x hx => hq x (List.mem_cons_of_mem r hx))

/-- C2 counterexample: on the ticket# sequence 100, 101, 103, 103, 104
the code flags three rows, not two: the duplicate 103 (difference 0) is
flagged as well, because its difference is not 1. -/
theorem claim_C2_counterexample :
    (saut_bl exSaut).rows.length = 3 ∧ ¬ (saut_bl exSaut).rows.length = 2 ∧
    (saut_bl exSaut).rows.map (fun r => (getCol r "plant", getCol r "ticket#")) =
      [(Val.vStr "P1", Val.vInt 100), (Val.vStr "P3", Val.vInt 103),
       (Val.vStr "P4", Val.vInt 103)] := by
  refine ⟨by decide, by decide, by decide⟩

/-- C2 (amended): the BL-jump rule sorts the (plant, ticket#, delv)
projection ascending by ticket#, attaches forward differences with the
first difference 0, and flags exactly the rows whose difference is not 1;
on the ticket# sequence 100, 101, 103, 103, 104 the differences are 0, 1,
2, 0, 1 and exactly the three rows with a difference other than 1 are
flagged: the first row (difference 0), the first 103 (difference 2) and
the duplicate 103 (difference 0). -/
theorem claim_C2_saut_bl (df : DF) :
    ((saut_bl df).rows =
      (diffCol none (sortByKey (fun a b => keyLE (ticketKey a) (ticketKey b))
          (selectDF ["plant", "ticket#", "delv"] df).rows)).filter
        (fun r => ! decide (getCol r "difference" = Val.vInt 1))) ∧
    List.Sorted (fun a b => keyLE (ticketKey a) (ticketKey b) = true)
      (sortByKey (fun a b => keyLE (ticketKey a) (ticketKey b))
        (selectDF ["plant", "ticket#", "delv"] df).rows) ∧
    List.Perm (sortByKey (fun a b => keyLE (ticketKey a) (ticketKey b))
        (selectDF ["plant", "ticket#", "delv"] df).rows)
      (selectDF ["plant", "ticket#", "delv"] df).rows ∧
    (∀ (vals : List Int) (rows : List Row),
      rows.map ticketKey = vals.map some →
      (∀ r ∈ rows, ∀ q ∈ r, q.1 ≠ "difference") →
      (diffCol none rows).map (fun r => getCol r "difference") =
        (forwardDiffs vals).map Val.vInt) ∧
    ((diffCol none (sortByKey (fun a b => keyLE (ticketKey a) (ticketKey b))
        (selectDF ["plant", "ticket#", "delv"] exSaut).rows)).map
      (fun r => getCol r "difference") =
      [Val.vInt 0, Val.vInt 1, Val.vInt 2, Val.vInt 0, Val.vInt 1]) ∧
    (saut_bl exSaut).rows.map (fun r => getCol r "ticket#") =
      [Val.vInt 100, Val.vInt 103, Val.vInt 103] := by
  haveI ht : IsTotal Row (fun a b => keyLE (ticketKey a) (ticketKey b) = true) :=
    ⟨fun a b => keyLE_total _ _⟩
  haveI htr : IsTrans Row (fun a b => keyLE (ticketKey a) (ticketKey b) = true) :=
    ⟨fun a b c => keyLE_trans _ _ _⟩
  refine ⟨rfl, ?_, ?_, fun vals rows hv hq => diffCol_map_none vals rows hv hq,
    by decide, by decide⟩
  · exact List.sorted_insertionSort _ _
  · exact List.perm_insertionSort _ _


theorem merged_data_mem_of_match (life jde : DF) (r0 j : Row)
    (h0 : r0 ∈ life.rows) (hj : j ∈ (data_jde_filtered jde).rows)
    (he : getCol j "n° expéd." = getCol r0 "shipment") :
    (r0 ++ [("n° expéd.", getCol j "n° expéd."),
            ("statut suivant", getCol j "statut suivant")]) ∈
      (merged_data life jde).rows := by
  simp only [merged_data, List.mem_flatMap]
  refine ⟨r0, h0, ?_⟩
  have hjm : j ∈ (data_jde_filtered jde).rows.filter
      (fun x => decide (getCol x "n° expéd." = getCol r0 "shipment")) :=
    List.mem_filter.mpr ⟨hj, by simp [he]⟩
  cases hcase : (data_jde_filtered jde).rows.filter
      (fun x => decide (getCol x "n° expéd." = getCol r0 "shipment")) with
  | nil =>
    rw [hcase] at hjm
    exact absurd hjm (List.not_mem_nil j)
  | cons m ms' =>
    rw [hcase] at hjm
    exact List.mem_map_of_mem _ hjm

theorem merged_data_mem_of_no_match (life jde : DF) (r0 : Row) (h0 : r0 ∈ life.rows)
    (hn : ∀ j ∈ (data_jde_filtered jde).rows,
      getCol j "n° expéd." ≠ getCol r0 "shipment") :
    (r0 ++ [("n° expéd.", Val.vNull), ("statut suivant", Val.vNull)]) ∈
      (merged_data life jde).rows := by
  simp only [merged_data, List.mem_flatMap]
  refine ⟨r0, h0, ?_⟩
  have hnil : (data_jde_filtered jde).rows.filter
      (fun x => decide (getCol x "n° expéd." = getCol r0 "shipment")) = [] :=
    List.filter_eq_nil_iff.mpr (fun j hj => by simp [hn j hj])
  rw [hnil]
  simp

/-- C3: the Status-565 rule filters the StatusFile to t c in SO or ST and
dernier statut outside 980, 984, 989, left-joins TicketLog onto the
filtered table on shipment = n° expéd., and the 565 view keeps exactly
the joined rows whose statut suivant equals 565.0; on the concrete
scenario the 565 view holds exactly the one joined S1 row, and changing
statut suivant to 999.0 empties the 565 view while the unfiltered export
join keeps the row. -/
theorem claim_C3_status_565 :
    (∀ (life jde : DF) (r : Row),
      r ∈ (staut_suivant_565 life jde).rows ↔
        r ∈ (merged_data life jde).rows ∧ getCol r "statut suivant" = Val.vInt 565) ∧
    (∀ (jde : DF) (r : Row),
      r ∈ (data_jde_filtered jde).rows ↔
        r ∈ jde.rows ∧
        (getCol r "t c" = Val.vStr "SO" ∨ getCol r "t c" = Val.vStr "ST") ∧
        ¬ (getCol r "dernier statut" = Val.vInt 980 ∨
           getCol r "dernier statut" = Val.vInt 984 ∨
           getCol r "dernier statut" = Val.vInt 989)) ∧
    (∀ (life jde : DF) (r0 j : Row),
      r0 ∈ life.rows → j ∈ (data_jde_filtered jde).rows →
      getCol j "n° expéd." = getCol r0 "shipment" →
      (r0 ++ [("n° expéd.", getCol j "n° expéd."),
              ("statut suivant", getCol j "statut suivant")]) ∈
        (merged_data life jde).rows) ∧
    (∀ (life jde : DF) (r0 : Row),
      r0 ∈ life.rows →
      (∀ j ∈ (data_jde_filtered jde).rows,
        getCol j "n° expéd." ≠ getCol r0 "shipment") →
      (r0 ++ [("n° expéd.", Val.vNull), ("statut suivant", Val.vNull)]) ∈
        (merged_data life jde).rows) ∧
    (staut_suivant_565 exLife565 exJde565).rows =
      [[("shipment", Val.vStr "S1"), ("n° expéd.", Val.vStr "S1"),
        ("statut suivant", Val.vInt 565)]] ∧
    (staut_suivant_565 exLife565 exJde999).rows = [] ∧
    (merged_data exLife565 exJde999).rows =
      [[("shipment", Val.vStr "S1"), ("n° expéd.", Val.vStr "S1"),
        ("statut suivant", Val.vInt 999)]] := by
  refine ⟨?_, ?_,
    fun life jde r0 j h0 hj he => merged_data_mem_of_match life jde r0 j h0 hj he,
    fun life jde r0 h0 hn => merged_data_mem_of_no_match life jde r0 h0 hn,
    by decide, by decide, by decide⟩
  · intro life jde r
    simp [staut_suivant_565, List.mem_filter]
  · intro jde r
    simp [data_jde_filtered, List.mem_filter, seriesEqStr, or_assoc]
    tauto

/-- C6: the trans_fic subset holds exactly the ReceivingLog rows whose
produit is a string containing one of the six material tokens POUZZOLANE,
PETCOKE, GYPSE, CLINKER, CALCAIRE, SABLE (the fixed material list, as a
case-sensitive substring) and whose carrier name is exactly the string
Transpoteur Fictif; a null produit never matches and never raises. -/
theorem claim_C6_trans_fic :
    (∀ (df : DF) (r : Row),
      r ∈ (trans_fic df).rows ↔
        r ∈ df.rows ∧
        (∃ s, getCol r "produit" = Val.vStr s ∧
          (containsCh "POUZZOLANE".data s.data = true ∨
           containsCh "PETCOKE".data s.data = true ∨
           containsCh "GYPSE".data s.data = true ∨
           containsCh "CLINKER".data s.data = true ∨
           containsCh "CALCAIRE".data s.data = true ∨
           containsCh "SABLE".data s.data = true)) ∧
        getCol r "carrier name" = Val.vStr "Transpoteur Fictif") ∧
    (∀ r : Row, getCol r "produit" = Val.vNull →
      containsNaFalse ["POUZZOLANE", "PETCOKE", "GYPSE", "CLINKER", "CALCAIRE", "SABLE"]
        (getCol r "produit") = false) := by
  constructor
  · intro df r
    cases hv : getCol r "produit" <;>
      simp [trans_fic, List.mem_filter, containsNaFalse, hv, seriesEqStr, or_assoc]
  · intro r h
    rw [h]
    rfl

/-- C7: the TMP-transporter subset (hired = TMP and delv = Y) and the
faulty-pickup subset (hired not TMP and delv = N) are disjoint: no row is
in both, and a row whose hired cell equals TMP is never a faulty pickup,
whatever its delv value. -/
theorem claim_C7_tmp_faulty_disjoint (df : DF) (r : Row) :
    (decide (r ∈ (trans_tmp df).rows) && decide (r ∈ (faulty_pickup df).rows)) = false ∧
    (seriesEqStr (getCol r "hired") "TMP" && decide (r ∈ (faulty_pickup df).rows)) = false := by
  by_cases hm : r ∈ (faulty_pickup df).rows
  · have hp : r ∈ df.rows ∧ seriesEqStr (getCol r "hired") "TMP" = false ∧
        seriesEqStr (getCol r "delv") "N" = true := by
      simpa [faulty_pickup, List.mem_filter] using hm
    have h1 : seriesEqStr (getCol r "hired") "TMP" = false := hp.2.1
    constructor
    · have h2 : decide (r ∈ (trans_tmp df).rows) = false := by
        simp [trans_tmp, List.mem_filter, h1]
      rw [h2, Bool.false_and]
    · rw [h1, Bool.false_and]
  · have h2 : decide (r ∈ (faulty_pickup df).rows) = false := by simpa using hm
    rw [h2, Bool.and_false, Bool.and_false]
    exact ⟨rfl, rfl⟩

/-- C5 counterexample: the column named unnamed: 61 is not the index-6
placeholder unnamed: 6 and trim + lower-case leaves it unchanged, yet the
TicketLog normalization renames it to vendor, because the source tests
substring containment, not equality. -/
theorem claim_C5_counterexample :
    rename_life "unnamed: 61" = "vendor" ∧
    (renameDF rename_life { cols := ["unnamed: 61"], rows := [] }).cols = ["vendor"] ∧
    ¬ "unnamed: 61" = "unnamed: 6" ∧ normName "unnamed: 61" = "unnamed: 61" := by
  refine ⟨by decide, by decide, by decide, by decide⟩

/-- C5 (amended): TicketLog normalization maps every column name through
rename_life: a name whose trimmed lower-cased form contains unnamed: 6 as
a substring becomes vendor; otherwise, one containing unnamed: 8 becomes
customer name; every other name is only trimmed and lower-cased; row
order and row count are unchanged. -/
theorem claim_C5_normalize_life (df : DF) :
    (renameDF rename_life df).cols = df.cols.map rename_life ∧
    (renameDF rename_life df).rows.length = df.rows.length ∧
    (∀ col : String,
      rename_life col =
        if pyIn "unnamed: 6" (normName col) = true then "vendor"
        else if pyIn "unnamed: 8" (normName col) = true then "customer name"
        else normName col) :=
  ⟨rfl, by simp [renameDF], fun col => rename_life_eq col⟩

theorem getCol_append_ne (r : Row) (k : String) (v : Val) (c : String) (h : c ≠ k) :
    getCol (r ++ [(k, v)]) c = getCol r c := by
  simp only [getCol, List.find?_append]
  cases hf : r.find? (fun p => decide (p.1 = c)) with
  | some q => simp
  | none =>
    simp only [Option.none_or]
    rw [List.find?_cons_of_neg _ (by simpa using Ne.symm h), List.find?_nil]

/-- C10: the valid bl mutation only appends one boolean column named
valid bl: the header gains exactly that name at its end, rows keep their
count, order and every pre-existing cell, and each row gains one boolean
cell holding the validation of its external ticket/bol value; in the
pipeline, faux_bl (computed after the mutation) carries the valid bl
column while trans_fic (computed before it) does not. -/
theorem claim_C10_valid_bl_frame :
    (∀ df : DF,
      (withValidBl df).cols = df.cols ++ ["valid bl"] ∧
      (withValidBl df).rows.length = df.rows.length ∧
      (withValidBl df).rows.map List.dropLast = df.rows ∧
      ∀ r ∈ df.rows,
        (r ++ [("valid bl",
          Val.vBool (validate_bl_number (getCol r "external ticket/bol")))]) ∈
          (withValidBl df).rows) ∧
    (∀ (r : Row) (v : Val) (c : String), c ≠ "valid bl" →
      getCol (r ++ [("valid bl", v)]) c = getCol r c) ∧
    (∀ raw_life raw_850 raw_jde : DF,
      (process raw_life raw_850 raw_jde).faux_bl.cols = lor850_keep ++ ["valid bl"] ∧
      (process raw_life raw_850 raw_jde).trans_fic.cols = lor850_keep ∧
      (sheetOf (process raw_life raw_850 raw_jde).faux_bl).head? =
        some ((lor850_keep ++ ["valid bl"]).map Val.vStr) ∧
      (sheetOf (process raw_life raw_850 raw_jde).trans_fic).head? =
        some (lor850_keep.map Val.vStr)) ∧
    "valid bl" ∉ lor850_keep := by
  refine ⟨?_, ?_, fun a b c => ⟨rfl, rfl, rfl, rfl⟩, by decide⟩
  · intro df
    refine ⟨rfl, by simp [withValidBl], ?_, ?_⟩
    · rw [withValidBl, List.map_map]
      exact (List.map_congr_left (fun r _ => by simp)).trans (List.map_id _)
    · intro r hr
      exact List.mem_map_of_mem _ hr
  · intro r v c h
    exact getCol_append_ne r "valid bl" v c h

/-- C4: the export writes exactly seven sheets, named prechargement,
saut_bl, trans_tmp, trans_fic, statut_suivant, faux_bl, faulty_pickup in
that order; each sheet is the header row of its result table followed by
all of its data rows (header-only when the table is empty), and the
statut_suivant sheet serializes the unfiltered join merged_data, which on
the 999 scenario differs from the 999-filtered intermediate. -/
theorem claim_C4_export (raw_life raw_850 raw_jde : DF) :
    (export_sheets (process raw_life raw_850 raw_jde)).map Prod.fst =
      ["prechargement", "saut_bl", "trans_tmp", "trans_fic", "statut_suivant",
       "faux_bl", "faulty_pickup"] ∧
    (export_sheets (process raw_life raw_850 raw_jde)).map Prod.snd =
      [sheetOf (process raw_life raw_850 raw_jde).prechargement,
       sheetOf (process raw_life raw_850 raw_jde).saut_bl,
       sheetOf (process raw_life raw_850 raw_jde).trans_tmp,
       sheetOf (process raw_life raw_850 raw_jde).trans_fic,
       sheetOf (process raw_life raw_850 raw_jde).merged_data,
       sheetOf (process raw_life raw_850 raw_jde).faux_bl,
       sheetOf (process raw_life raw_850 raw_jde).faulty_pickup] ∧
    (∀ df : DF, (sheetOf df).head? = some (df.cols.map Val.vStr) ∧
      (sheetOf df).length = df.rows.length + 1 ∧
      (df.rows = [] → sheetOf df = [df.cols.map Val.vStr])) ∧
    sheetOf (merged_data exLife565 exJde999) ≠
      sheetOf (merged_data_filtered exLife565 exJde999) := by
  refine ⟨rfl, rfl, fun df => ⟨rfl, by simp [sheetOf], fun h => by simp [sheetOf, h]⟩,
    by decide⟩
